import Mathlib

/-!
Verification of the private-communication chaincode (package Communication).

The ledger is embedded shallowly:
- world state (used for message notices, composite key "mn" with attributes
  [receiver, sender]) is an association list from (receiver, sender) to the
  stored value ("1" = unread, "0" = read), kept sorted in the key order a
  partial composite-key scan would iterate it in;
- per-organization private data collections (named sender ++ "MSPCollection")
  form an association list from (collection, key) to the stored record; the
  JSON marshal/unmarshal round trip of MessageForReceiver is modelled as the
  identity, so records are stored directly;
- within one transaction, GetState / GetPrivateData read the transaction's
  snapshot (Fabric stubs do not read back the transaction's own writes), so
  the send loop reads from the snapshot state and accumulates writes;
- storage-level failures (stub errors) are not modelled: the embedded store
  is total. The error values below model the error returns the chaincode
  itself constructs.
-/

/-- Go byte slices, as lists of characters (string conversion is String.mk). -/
abbrev Bytes := List Char

structure ConfidentialMessageBySender where
  sender : String
  receivers : List String
  message : Bytes
  note : String
deriving DecidableEq

structure MessageForReceiver where
  sender : String
  receiver : String
  messages : List Bytes
  notes : List String
deriving DecidableEq

structure ReturnMessages where
  messages : List String
  notes : List String
deriving DecidableEq

/-- World-state entries for message notices: key (receiver, sender), value
the stored bytes ("1" or "0" in every reachable state). -/
abbrev NoticeStore := List ((String × String) × String)

/-- Private-data entries: key (collection name, state key), value the stored
MessageForReceiver record. -/
abbrev PrivStore := List ((String × String) × MessageForReceiver)

/-- Composite keys with equal object type compare by their attribute list:
first by receiver, then by sender. -/
def keyLt (a b : String × String) : Bool :=
  decide (a.1 < b.1) || (a.1 == b.1 && decide (a.2 < b.2))

def getNotice : NoticeStore → (String × String) → Option String
  | [], _ => none
  | e :: rest, k => if k = e.1 then some e.2 else getNotice rest k

def putNotice : NoticeStore → (String × String) → String → NoticeStore
  | [], k, v => [(k, v)]
  | e :: rest, k, v =>
    if k = e.1 then (k, v) :: rest
    else if keyLt k e.1 then (k, v) :: e :: rest
    else e :: putNotice rest k v

def getPriv : PrivStore → (String × String) → Option MessageForReceiver
  | [], _ => none
  | e :: rest, k => if k = e.1 then some e.2 else getPriv rest k

def putPriv : PrivStore → (String × String) → MessageForReceiver → PrivStore
  | [], k, v => [(k, v)]
  | e :: rest, k, v => if k = e.1 then (k, v) :: rest else e :: putPriv rest k v

structure LedgerState where
  notices : NoticeStore
  privData : PrivStore
deriving DecidableEq

def emptyLedger : LedgerState := ⟨[], []⟩

/-- Errors constructed by CreateConfidentialMessageBySender (and by the
notice helpers it calls), in the order the code can produce them. -/
inductive SendError where
  | transientMissing
  | unmarshalFailed
  | emptySender
  | emptyReceivers
  | emptyMessage
  | emptyNote
  | senderMismatch
  | orgMismatch
deriving DecidableEq

/-- Errors constructed by ReadConfidentialMessage. -/
inductive ReadError where
  | receiverMismatch
  | notFound
deriving DecidableEq

/-- CreateMessageNotice(ctx, sender, receiver): composite key
("mn", [receiver, sender]); if the stored value equals "1" (exists, unread)
do nothing, otherwise put "1". Reads go to the transaction snapshot, writes
to the evolving write set, hence the two state arguments (for a standalone
invocation they coincide). -/
def CreateMessageNotice (snap st : LedgerState) (sender receiver : String) :
    LedgerState :=
  if getNotice snap.notices (receiver, sender) = some "1" then st
  else { st with notices := putNotice st.notices (receiver, sender) "1" }

/-- One iteration of the result loop in ReadMessageNotice. For an unread
entry (value "1") the code appends keyPart[1] (the sender) and writes "0";
for any other entry it appends keyPart[0] — which is the receiver component
of the key, faithfully kept here. -/
def noticeStep (receiver : String) (acc : List String × LedgerState)
    (e : (String × String) × String) : List String × LedgerState :=
  if e.2 = "1" then
    (acc.1 ++ [e.1.2],
     { acc.2 with notices := putNotice acc.2.notices (receiver, e.1.2) "0" })
  else
    (acc.1 ++ [e.1.1], acc.2)

/-- ReadMessageNotice(ctx, receiver): partial composite-key scan of "mn" by
[receiver] over the snapshot, then the result loop. The transaction context
carries the caller's identity (clientMSPID) but the function body never
consults it. -/
def ReadMessageNotice (st : LedgerState) (clientMSPID : String)
    (receiver : String) : List String × LedgerState :=
  (st.notices.filter (fun e => e.1.1 == receiver)).foldl
    (noticeStep receiver) ([], st)

/-- verifyClientOrgMatchesPeerOrg: error when the client MSP id differs from
the peer MSP id. -/
def verifyClientOrgMatchesPeerOrg (clientMSPID peerMSPID : String) :
    Except SendError Unit :=
  if clientMSPID ≠ peerMSPID then .error .orgMismatch else .ok ()

/-- One iteration of the receivers loop in CreateConfidentialMessageBySender:
read the old record for (sender ++ "MSPCollection", receiver) from the
snapshot, append (or start) the message/note sequences, write the record
back, then CreateMessageNotice. -/
def appendOne (snap : LedgerState) (messageInput : ConfidentialMessageBySender)
    (st : LedgerState) (receiver : String) : LedgerState :=
  let coll := messageInput.sender ++ "MSPCollection"
  let pair :=
    match getPriv snap.privData (coll, receiver) with
    | some oldMessage =>
        (oldMessage.messages ++ [messageInput.message],
         oldMessage.notes ++ [messageInput.note])
    | none => ([messageInput.message], [messageInput.note])
  let newMessage : MessageForReceiver :=
    ⟨messageInput.sender, receiver, pair.1, pair.2⟩
  let st1 := { st with privData := putPriv st.privData (coll, receiver) newMessage }
  CreateMessageNotice snap st1 messageInput.sender receiver

/-- CreateConfidentialMessageBySender(ctx): transient field "message"
(missing / unmarshal failure / parsed input), the four emptiness checks, the
sender-vs-client MSPID check, verifyClientOrgMatchesPeerOrg, then the
receivers loop. -/
def CreateConfidentialMessageBySender (st : LedgerState)
    (clientMSPID peerMSPID : String)
    (transient : Option (Option ConfidentialMessageBySender)) :
    Except SendError LedgerState :=
  match transient with
  | none => .error .transientMissing
  | some none => .error .unmarshalFailed
  | some (some messageInput) =>
    if messageInput.sender.length = 0 then .error .emptySender
    else if messageInput.receivers.length = 0 then .error .emptyReceivers
    else if messageInput.message.length = 0 then .error .emptyMessage
    else if messageInput.note.length = 0 then .error .emptyNote
    else if messageInput.sender ++ "MSP" ≠ clientMSPID then .error .senderMismatch
    else
      match verifyClientOrgMatchesPeerOrg clientMSPID peerMSPID with
      | .error e => .error e
      | .ok _ => .ok (messageInput.receivers.foldl (appendOne st messageInput) st)

/-- ReadConfidentialMessage(ctx, sender, receiver): receiver-vs-client MSPID
check, private-data read (nil means no message), then the record is returned
with each message payload converted by string(). -/
def ReadConfidentialMessage (st : LedgerState) (clientMSPID : String)
    (sender receiver : String) : Except ReadError ReturnMessages :=
  if receiver ++ "MSP" ≠ clientMSPID then .error .receiverMismatch
  else
    match getPriv st.privData (sender ++ "MSPCollection", receiver) with
    | none => .error .notFound
    | some message =>
        .ok ⟨message.messages.map (fun b => String.mk b), message.notes⟩

/-- MessageNoticeExists(ctx, key): true when the world state holds the key. -/
def MessageNoticeExists (st : LedgerState) (key : String × String) : Bool :=
  (getNotice st.notices key).isSome

/-- Extract the state of a successful send (default: the empty ledger). -/
def okState (e : Except SendError LedgerState) : LedgerState :=
  match e with
  | .ok s => s
  | .error _ => emptyLedger

/-- The ledger after one successful send org1 -> org2 ("hi" / "note"). -/
def demoSendState : LedgerState :=
  okState (CreateConfidentialMessageBySender emptyLedger "org1MSP" "org1MSP"
    (some (some ⟨"org1", ["org2"], ['h', 'i'], "note"⟩)))

/-- A sequence of single-receiver sends A -> B, one transaction each, each
carrying one (message, note) payload; stops at the first error. -/
def sendSeq (A B : String) : List (Bytes × String) → LedgerState →
    Except SendError LedgerState
  | [], st => .ok st
  | p :: rest, st =>
    match CreateConfidentialMessageBySender st (A ++ "MSP") (A ++ "MSP")
        (some (some ⟨A, [B], p.1, p.2⟩)) with
    | .error e => .error e
    | .ok st1 => sendSeq A B rest st1

/-- The three public operations, each one transaction, with the identity
data its transaction context supplies. -/
inductive Op where
  | send (clientMSPID peerMSPID : String)
      (transient : Option (Option ConfidentialMessageBySender))
  | readNotices (clientMSPID receiver : String)
  | readMessages (clientMSPID sender receiver : String)

/-- State transition of one operation: a failed send commits nothing, reads
of messages never write, reading notices commits its drain writes. -/
def applyOp (st : LedgerState) : Op → LedgerState
  | .send c p t =>
    match CreateConfidentialMessageBySender st c p t with
    | .ok st1 => st1
    | .error _ => st
  | .readNotices c r => (ReadMessageNotice st c r).2
  | .readMessages _ _ _ => st

/-- The (sender, receiver) pairs a successful send delivers to; empty for
failed sends and for the read operations. -/
def sentPairs (st : LedgerState) : Op → List (String × String)
  | .send c p t =>
    match CreateConfidentialMessageBySender st c p t with
    | .ok _ =>
      match t with
      | some (some m) => m.receivers.map (fun r => (m.sender, r))
      | _ => []
    | .error _ => []
  | _ => []

/-- Run a trace of operations, accumulating the delivered pairs. -/
def execTrace : LedgerState → List (String × String) → List Op →
    LedgerState × List (String × String)
  | st, sent, [] => (st, sent)
  | st, sent, op :: ops => execTrace (applyOp st op) (sent ++ sentPairs st op) ops

/-- The notice-index invariant of §3: a notice for (receiver, sender) exists
iff some successful send delivered sender -> receiver. -/
def NoticeInvariant (st : LedgerState) (sent : List (String × String)) : Prop :=
  ∀ s r, (getNotice st.notices (r, s)).isSome = true ↔ (s, r) ∈ sent

/-- Every stored notice value is "1" (unread) or "0" (read). -/
def noticeValsOK (st : LedgerState) : Prop :=
  ∀ e ∈ st.notices, e.2 = "1" ∨ e.2 = "0"

/-- C1: the claim requires the scan-and-drain to report the sender of every
notice, read or unread; the code is a slip: for an already-read notice it
takes keyPart[0] — the receiver component of the composite key — as the
sender (its unread branch correctly takes keyPart[1]). After send
org1 -> org2 and one ReadMessageNotice for org2 (which returns ["org1"] and
marks the notice read), a second ReadMessageNotice returns ["org2"], not
["org1"]. -/
theorem C1_second_read_returns_receiver_not_sender :
    (ReadMessageNotice demoSendState "org2MSP" "org2").1 = ["org1"] ∧
    (ReadMessageNotice (ReadMessageNotice demoSendState "org2MSP" "org2").2
        "org2MSP" "org2").1 = ["org2"] ∧
    ("org2" : String) ≠ "org1" := by decide

/-- C2 counterexample: a caller whose identity "org3MSP" differs from the
receiver identity "org2" ++ "MSP" still gets the full scan-and-drain from
ReadMessageNotice — it returns the sender list and mutates the notice store
instead of failing with an authorization error. -/
theorem C2_drain_despite_identity_mismatch :
    ("org2" ++ "MSP" ≠ "org3MSP") ∧
    (ReadMessageNotice demoSendState "org3MSP" "org2").1 = ["org1"] ∧
    (ReadMessageNotice demoSendState "org3MSP" "org2").2 ≠ demoSendState := by
  decide

/-- C5: a send whose payload passes the emptiness checks but claims a sender
whose organization (sender ++ "MSP") differs from the caller's MSPID fails
with the sender-mismatch error before the receivers loop runs, so no notice
and no mailbox record is written; symmetrically, ReadConfidentialMessage
fails with the receiver-mismatch error whenever the addressed receiver's
organization differs from the caller's MSPID. -/
theorem C5_authorization_guard (st : LedgerState)
    (clientMSPID peerMSPID : String) (m : ConfidentialMessageBySender)
    (sender receiver : String)
    (hs : m.sender.length ≠ 0) (hr : m.receivers.length ≠ 0)
    (hm : m.message.length ≠ 0) (hn : m.note.length ≠ 0)
    (hauth : m.sender ++ "MSP" ≠ clientMSPID)
    (hread : receiver ++ "MSP" ≠ clientMSPID) :
    CreateConfidentialMessageBySender st clientMSPID peerMSPID (some (some m)) =
        .error .senderMismatch ∧
    ReadConfidentialMessage st clientMSPID sender receiver =
        .error .receiverMismatch := by
  constructor
  · simp [CreateConfidentialMessageBySender, hs, hr, hm, hn, hauth]
  · simp [ReadConfidentialMessage, hread]

/-- C5 witness at concrete inputs. -/
theorem C5_authorization_guard_witness :
    CreateConfidentialMessageBySender emptyLedger "org9MSP" "org9MSP"
        (some (some ⟨"org1", ["org2"], ['h'], "n"⟩)) = .error .senderMismatch ∧
    ReadConfidentialMessage emptyLedger "org9MSP" "org1" "org2" =
        .error .receiverMismatch :=
  C5_authorization_guard emptyLedger "org9MSP" "org9MSP"
    ⟨"org1", ["org2"], ['h'], "n"⟩ "org1" "org2"
    (by decide) (by decide) (by decide) (by decide) (by decide) (by decide)

/-- C7: with an authorized caller, ReadConfidentialMessage fails with the
not-found error when no record is stored under
(sender ++ "MSPCollection", receiver), and otherwise returns the stored note
sequence as is and the stored message payloads through string conversion. -/
theorem C7_read_mailbox (st : LedgerState)
    (clientMSPID sender receiver : String)
    (hc : receiver ++ "MSP" = clientMSPID) :
    (getPriv st.privData (sender ++ "MSPCollection", receiver) = none →
      ReadConfidentialMessage st clientMSPID sender receiver =
        .error .notFound) ∧
    (∀ stored,
      getPriv st.privData (sender ++ "MSPCollection", receiver) = some stored →
      ReadConfidentialMessage st clientMSPID sender receiver =
        .ok ⟨stored.messages.map (fun b => String.mk b), stored.notes⟩) := by
  constructor
  · intro h
    simp [ReadConfidentialMessage, hc, h]
  · intro stored h
    simp [ReadConfidentialMessage, hc, h]

/-- C7 witness at concrete inputs. -/
theorem C7_read_mailbox_witness :
    ReadConfidentialMessage demoSendState "org2MSP" "org1" "org2" =
      .ok ⟨[['h', 'i']].map (fun b => String.mk b), ["note"]⟩ :=
  (C7_read_mailbox demoSendState "org2MSP" "org1" "org2" (by decide)).2
    ⟨"org1", "org2", [['h', 'i']], ["note"]⟩ (by decide)

/-- C8: a send whose payload has an empty sender, empty receivers list,
empty message, or empty note fails with the corresponding validation error;
the result does not depend on the ledger state (the checks precede every
state access), so a failed send leaves the ledger untouched. -/
theorem C8_validation_guard (st : LedgerState)
    (clientMSPID peerMSPID : String) (m : ConfidentialMessageBySender)
    (h : m.sender.length = 0 ∨ m.receivers.length = 0 ∨
         m.message.length = 0 ∨ m.note.length = 0) :
    ∃ e, CreateConfidentialMessageBySender st clientMSPID peerMSPID
        (some (some m)) = .error e ∧
      (e = SendError.emptySender ∨ e = SendError.emptyReceivers ∨
       e = SendError.emptyMessage ∨ e = SendError.emptyNote) := by
  by_cases h1 : m.sender.length = 0
  · refine ⟨.emptySender, ?_, Or.inl rfl⟩
    simp [CreateConfidentialMessageBySender, h1]
  · by_cases h2 : m.receivers.length = 0
    · refine ⟨.emptyReceivers, ?_, Or.inr (Or.inl rfl)⟩
      simp [CreateConfidentialMessageBySender, h1, h2]
    · by_cases h3 : m.message.length = 0
      · refine ⟨.emptyMessage, ?_, Or.inr (Or.inr (Or.inl rfl))⟩
        simp [CreateConfidentialMessageBySender, h1, h2, h3]
      · have h4 : m.note.length = 0 := by tauto
        refine ⟨.emptyNote, ?_, Or.inr (Or.inr (Or.inr rfl))⟩
        simp [CreateConfidentialMessageBySender, h1, h2, h3, h4]

/-- C8 witness at a concrete input (empty note). -/
theorem C8_validation_guard_witness :
    ∃ e, CreateConfidentialMessageBySender emptyLedger "org1MSP" "org1MSP"
        (some (some ⟨"org1", ["org2"], ['h'], ""⟩)) = .error e ∧
      (e = SendError.emptySender ∨ e = SendError.emptyReceivers ∨
       e = SendError.emptyMessage ∨ e = SendError.emptyNote) :=
  C8_validation_guard emptyLedger "org1MSP" "org1MSP"
    ⟨"org1", ["org2"], ['h'], ""⟩ (by decide)

/-- C10: a send whose transient map lacks the "message" entry, or whose
entry does not unmarshal, fails with the corresponding error; the result
depends neither on the ledger state nor on the identities, so the failure
happens before any identity check and before any state access. -/
theorem C10_transient_guard (st : LedgerState)
    (clientMSPID peerMSPID : String) :
    CreateConfidentialMessageBySender st clientMSPID peerMSPID none =
        .error .transientMissing ∧
    CreateConfidentialMessageBySender st clientMSPID peerMSPID (some none) =
        .error .unmarshalFailed :=
  ⟨rfl, rfl⟩

theorem getNotice_putNotice_self (l : NoticeStore) (k : String × String)
    (v : String) : getNotice (putNotice l k v) k = some v := by
  induction l with
  | nil => simp [putNotice, getNotice]
  | cons e rest ih =>
      by_cases h1 : k = e.1
      · simp [putNotice, h1, getNotice]
      · by_cases h2 : keyLt k e.1 = true
        · simp [putNotice, h1, h2, getNotice]
        · simp [putNotice, h1, h2, getNotice, ih]

theorem getNotice_putNotice_ne (l : NoticeStore) (k k' : String × String)
    (v : String) (h : k' ≠ k) :
    getNotice (putNotice l k v) k' = getNotice l k' := by
  induction l with
  | nil => simp [putNotice, getNotice, h]
  | cons e rest ih =>
      by_cases h1 : k = e.1
      · have h' : k' ≠ e.1 := h1 ▸ h
        simp [putNotice, h1, getNotice, h, h']
      · by_cases h2 : keyLt k e.1 = true
        · simp [putNotice, h1, h2, getNotice, h]
        · simp [putNotice, h1, h2, getNotice, ih]

theorem getNotice_mem {l : NoticeStore} {k : String × String} {v : String}
    (h : getNotice l k = some v) : (k, v) ∈ l := by
  induction l with
  | nil => simp [getNotice] at h
  | cons e rest ih =>
      by_cases h1 : k = e.1
      · simp [getNotice, h1] at h
        subst h1
        subst h
        exact List.mem_cons_self _ _
      · simp [getNotice, h1] at h
        exact List.mem_cons_of_mem _ (ih h)

theorem isSome_getNotice_of_mem {l : NoticeStore} {k : String × String}
    {v : String} (h : (k, v) ∈ l) : (getNotice l k).isSome = true := by
  induction l with
  | nil => simp at h
  | cons e rest ih =>
      by_cases h1 : k = e.1
      · simp [getNotice, h1]
      · rcases List.mem_cons.mp h with he | ht
        · exact absurd (congrArg Prod.fst he) h1
        · simp only [getNotice, if_neg h1]
          exact ih ht

theorem mem_putNotice {l : NoticeStore} {k : String × String} {v : String}
    {e : (String × String) × String} (h : e ∈ putNotice l k v) :
    e ∈ l ∨ e = (k, v) := by
  induction l with
  | nil =>
      simp [putNotice] at h
      exact Or.inr h
  | cons f rest ih =>
      by_cases h1 : k = f.1
      · subst h1
        simp [putNotice] at h
        rcases h with h | h
        · exact Or.inr (by simp [h])
        · exact Or.inl (List.mem_cons_of_mem _ h)
      · by_cases h2 : keyLt k f.1 = true
        · simp [putNotice, h1, h2] at h
          rcases h with h | h | h
          · exact Or.inr (by simp [h])
          · exact Or.inl (by simp [h])
          · exact Or.inl (List.mem_cons_of_mem _ h)
        · simp [putNotice, h1, h2] at h
          rcases h with h | h
          · exact Or.inl (by simp [h])
          · rcases ih h with h' | h'
            · exact Or.inl (List.mem_cons_of_mem _ h')
            · exact Or.inr h'

theorem getPriv_putPriv_self (l : PrivStore) (k : String × String)
    (v : MessageForReceiver) : getPriv (putPriv l k v) k = some v := by
  induction l with
  | nil => simp [putPriv, getPriv]
  | cons e rest ih =>
      by_cases h1 : k = e.1
      · simp [putPriv, h1, getPriv]
      · simp [putPriv, h1, getPriv, ih]

theorem CreateMessageNotice_privData (snap st : LedgerState) (s r : String) :
    (CreateMessageNotice snap st s r).privData = st.privData := by
  unfold CreateMessageNotice
  split <;> rfl

theorem foldl_noticeStep_keeps (r : String) (entries : NoticeStore)
    (acc : List String × LedgerState) (k : String × String)
    (h : getNotice acc.2.notices k = some "0") :
    getNotice (entries.foldl (noticeStep r) acc).2.notices k = some "0" := by
  induction entries generalizing acc with
  | nil => exact h
  | cons e rest ih =>
      rw [List.foldl_cons]
      apply ih
      unfold noticeStep
      split
      · by_cases hk : k = (r, e.1.2)
        · subst hk
          simp [getNotice_putNotice_self]
        · simpa [getNotice_putNotice_ne _ _ _ _ hk] using h
      · exact h

theorem foldl_noticeStep_drains (r : String) (entries : NoticeStore)
    (acc : List String × LedgerState) (k : String × String) (hk : k.1 = r)
    (h : (k, "1") ∈ entries ∨ getNotice acc.2.notices k = some "0") :
    getNotice (entries.foldl (noticeStep r) acc).2.notices k = some "0" := by
  induction entries generalizing acc with
  | nil =>
      rcases h with h | h
      · simp at h
      · exact h
  | cons e rest ih =>
      rcases h with h | h
      · rcases List.mem_cons.mp h with he | ht
        · rw [List.foldl_cons]
          apply ih
          right
          rw [← he]
          unfold noticeStep
          rw [if_pos rfl]
          have hkey : (r, k.2) = k := by rw [← hk]
          simpa [hkey] using getNotice_putNotice_self acc.2.notices k "0"
        · rw [List.foldl_cons]
          exact ih _ (Or.inl ht)
      · exact foldl_noticeStep_keeps r (e :: rest) acc k h

/-- C2 amended: ReadMessageNotice performs no identity verification at all —
its result and its state effect are independent of the caller's identity,
and it performs the mutating scan-and-drain (every unread notice of the
given receiver becomes read) for any receiver argument, whoever calls it. -/
theorem C2_read_notice_ignores_caller (st : LedgerState) (c1 c2 r : String) :
    ReadMessageNotice st c1 r = ReadMessageNotice st c2 r ∧
    (∀ s, getNotice st.notices (r, s) = some "1" →
      getNotice (ReadMessageNotice st c1 r).2.notices (r, s) = some "0") := by
  refine ⟨rfl, fun s h => ?_⟩
  unfold ReadMessageNotice
  apply foldl_noticeStep_drains r _ _ _ rfl
  left
  exact List.mem_filter.mpr ⟨getNotice_mem h, by simp⟩

/-- C2 amendment witness at a concrete input (caller differs from the
receiver's organization). -/
theorem C2_read_notice_ignores_caller_witness :
    getNotice (ReadMessageNotice demoSendState "org3MSP" "org2").2.notices
      ("org2", "org1") = some "0" :=
  (C2_read_notice_ignores_caller demoSendState "org3MSP" "zzz" "org2").2
    "org1" (by decide)

/-- C4: CreateMessageNotice is a no-op when the notice is already unread
(stored value "1"); consequently two successive sends A -> B with no read in
between leave exactly one notice entry, keyed (B, A) with value "1" (unread),
and ReadMessageNotice for B then returns A exactly once. -/
theorem C4_idempotent_notice (st : LedgerState) (s r A B : String)
    (msg : Bytes) (note : String)
    (hunread : getNotice st.notices (r, s) = some "1")
    (hA : A.length ≠ 0) (hmsg : msg.length ≠ 0) (hnote : note.length ≠ 0) :
    CreateMessageNotice st st s r = st ∧
    ∃ st1 st2,
      CreateConfidentialMessageBySender emptyLedger (A ++ "MSP") (A ++ "MSP")
          (some (some ⟨A, [B], msg, note⟩)) = .ok st1 ∧
      CreateConfidentialMessageBySender st1 (A ++ "MSP") (A ++ "MSP")
          (some (some ⟨A, [B], msg, note⟩)) = .ok st2 ∧
      st2.notices = [((B, A), "1")] ∧
      (ReadMessageNotice st2 (B ++ "MSP") B).1 = [A] := by
  constructor
  · unfold CreateMessageNotice
    rw [if_pos hunread]
  · refine ⟨⟨[((B, A), "1")], [((A ++ "MSPCollection", B), ⟨A, B, [msg], [note]⟩)]⟩,
      ⟨[((B, A), "1")], [((A ++ "MSPCollection", B), ⟨A, B, [msg, msg], [note, note]⟩)]⟩,
      ?_, ?_, rfl, ?_⟩
    · simp [CreateConfidentialMessageBySender, verifyClientOrgMatchesPeerOrg,
        appendOne, CreateMessageNotice, emptyLedger, getPriv, putPriv,
        getNotice, putNotice, hA, hmsg, hnote]
    · simp [CreateConfidentialMessageBySender, verifyClientOrgMatchesPeerOrg,
        appendOne, CreateMessageNotice, emptyLedger, getPriv, putPriv,
        getNotice, putNotice, hA, hmsg, hnote]
    · simp [ReadMessageNotice, noticeStep]

/-- C4 witness at concrete inputs. -/
theorem C4_idempotent_notice_witness :
    CreateMessageNotice demoSendState demoSendState "org1" "org2" =
      demoSendState ∧
    ∃ st1 st2,
      CreateConfidentialMessageBySender emptyLedger ("org1" ++ "MSP")
          ("org1" ++ "MSP") (some (some ⟨"org1", ["org2"], ['h'], "n"⟩)) =
        .ok st1 ∧
      CreateConfidentialMessageBySender st1 ("org1" ++ "MSP") ("org1" ++ "MSP")
          (some (some ⟨"org1", ["org2"], ['h'], "n"⟩)) = .ok st2 ∧
      st2.notices = [(("org2", "org1"), "1")] ∧
      (ReadMessageNotice st2 ("org2" ++ "MSP") "org2").1 = ["org1"] :=
  C4_idempotent_notice demoSendState "org1" "org2" "org1" "org2" ['h'] "n"
    (by decide) (by decide) (by decide) (by decide)

theorem send_one_ok (A B : String) (st : LedgerState) (p : Bytes × String)
    (hA : A.length ≠ 0) (hm : p.1.length ≠ 0) (hn : p.2.length ≠ 0) :
    CreateConfidentialMessageBySender st (A ++ "MSP") (A ++ "MSP")
        (some (some ⟨A, [B], p.1, p.2⟩)) =
      .ok (appendOne st ⟨A, [B], p.1, p.2⟩ st B) := by
  simp [CreateConfidentialMessageBySender, verifyClientOrgMatchesPeerOrg,
    hA, hm, hn]

theorem sendSeq_ok (A B : String) (hA : A.length ≠ 0) :
    ∀ (ps : List (Bytes × String)) (st : LedgerState)
      (ms : List Bytes) (ns : List String),
      (∀ p ∈ ps, p.1.length ≠ 0 ∧ p.2.length ≠ 0) →
      getPriv st.privData (A ++ "MSPCollection", B) = some ⟨A, B, ms, ns⟩ →
      ∃ st', sendSeq A B ps st = .ok st' ∧
        getPriv st'.privData (A ++ "MSPCollection", B) =
          some ⟨A, B, ms ++ ps.map Prod.fst, ns ++ ps.map Prod.snd⟩ := by
  intro ps
  induction ps with
  | nil =>
      intro st ms ns _ hst
      exact ⟨st, rfl, by simpa using hst⟩
  | cons p rest ih =>
      intro st ms ns hps hst
      have hsend := send_one_ok A B st p hA (hps p (by simp)).1 (hps p (by simp)).2
      have hpriv1 : getPriv (appendOne st ⟨A, [B], p.1, p.2⟩ st B).privData
          (A ++ "MSPCollection", B) = some ⟨A, B, ms ++ [p.1], ns ++ [p.2]⟩ := by
        unfold appendOne
        rw [CreateMessageNotice_privData]
        simp [hst, getPriv_putPriv_self]
      obtain ⟨st', hrun, hres⟩ := ih (appendOne st ⟨A, [B], p.1, p.2⟩ st B)
        (ms ++ [p.1]) (ns ++ [p.2])
        (fun q hq => hps q (List.mem_cons_of_mem _ hq)) hpriv1
      refine ⟨st', ?_, ?_⟩
      · rw [sendSeq, hsend]
        exact hrun
      · simpa [List.append_assoc] using hres

/-- C3: a sequence of n valid single-receiver sends A -> B, starting from
any state with no mailbox record for (A's collection, B), all succeed, and
ReadConfidentialMessage by B then returns exactly the n messages (through
string conversion) and the n notes, index-aligned, in send order; since
this holds for every send sequence, every earlier prefix of the mailbox is
preserved verbatim by later sends. -/
theorem C3_monotonic_mailbox (A B : String) (ps : List (Bytes × String))
    (st : LedgerState) (hA : A.length ≠ 0)
    (hps : ∀ p ∈ ps, p.1.length ≠ 0 ∧ p.2.length ≠ 0) (hne : ps ≠ [])
    (habs : getPriv st.privData (A ++ "MSPCollection", B) = none) :
    ∃ st', sendSeq A B ps st = .ok st' ∧
      ReadConfidentialMessage st' (B ++ "MSP") A B =
        .ok ⟨ps.map (fun p => String.mk p.1), ps.map Prod.snd⟩ := by
  cases ps with
  | nil => exact absurd rfl hne
  | cons p rest =>
      have hsend := send_one_ok A B st p hA (hps p (by simp)).1 (hps p (by simp)).2
      have hpriv1 : getPriv (appendOne st ⟨A, [B], p.1, p.2⟩ st B).privData
          (A ++ "MSPCollection", B) = some ⟨A, B, [p.1], [p.2]⟩ := by
        unfold appendOne
        rw [CreateMessageNotice_privData]
        simp [habs, getPriv_putPriv_self]
      obtain ⟨st', hrun, hres⟩ := sendSeq_ok A B hA rest
        (appendOne st ⟨A, [B], p.1, p.2⟩ st B) [p.1] [p.2]
        (fun q hq => hps q (List.mem_cons_of_mem _ hq)) hpriv1
      refine ⟨st', ?_, ?_⟩
      · rw [sendSeq, hsend]
        exact hrun
      · simp [ReadConfidentialMessage, hres, Function.comp]

/-- C3 witness at concrete inputs (two sends). -/
theorem C3_monotonic_mailbox_witness :
    ∃ st', sendSeq "org1" "org2" [(['h', 'i'], "n1"), (['y', 'o'], "n2")]
        emptyLedger = .ok st' ∧
      ReadConfidentialMessage st' ("org2" ++ "MSP") "org1" "org2" =
        .ok ⟨[(['h', 'i'], "n1"), (['y', 'o'], "n2")].map (fun p => String.mk p.1),
            [((['h', 'i'] : Bytes), "n1"), (['y', 'o'], "n2")].map Prod.snd⟩ :=
  C3_monotonic_mailbox "org1" "org2" [(['h', 'i'], "n1"), (['y', 'o'], "n2")]
    emptyLedger (by decide) (by decide) (by decide) (by decide)

theorem send_ok_inv {st : LedgerState} {c p : String}
    {t : Option (Option ConfidentialMessageBySender)} {st' : LedgerState}
    (h : CreateConfidentialMessageBySender st c p t = .ok st') :
    ∃ m, t = some (some m) ∧
      st' = m.receivers.foldl (appendOne st m) st := by
  match t with
  | none => simp [CreateConfidentialMessageBySender] at h
  | some none => simp [CreateConfidentialMessageBySender] at h
  | some (some m) =>
      refine ⟨m, rfl, ?_⟩
      simp only [CreateConfidentialMessageBySender,
        verifyClientOrgMatchesPeerOrg] at h
      split_ifs at h <;> cases h <;> rfl

theorem getNotice_CreateMessageNotice (snap st : LedgerState) (s r : String)
    (k : String × String)
    (hmono : (getNotice snap.notices (r, s)).isSome = true →
             (getNotice st.notices (r, s)).isSome = true) :
    ((getNotice (CreateMessageNotice snap st s r).notices k).isSome = true) ↔
      ((getNotice st.notices k).isSome = true ∨ k = (r, s)) := by
  unfold CreateMessageNotice
  split
  · next hsnap =>
      constructor
      · exact Or.inl
      · rintro (h | rfl)
        · exact h
        · exact hmono (by simp [hsnap])
  · by_cases hk : k = (r, s)
    · subst hk
      simp [getNotice_putNotice_self]
    · simp [getNotice_putNotice_ne _ _ _ _ hk, hk]

theorem getNotice_appendOne (snap : LedgerState)
    (m : ConfidentialMessageBySender) (acc : LedgerState) (r : String)
    (k : String × String)
    (hmono : (getNotice snap.notices (r, m.sender)).isSome = true →
             (getNotice acc.notices (r, m.sender)).isSome = true) :
    ((getNotice (appendOne snap m acc r).notices k).isSome = true) ↔
      ((getNotice acc.notices k).isSome = true ∨ k = (r, m.sender)) := by
  unfold appendOne
  exact getNotice_CreateMessageNotice snap _ m.sender r k hmono

theorem getNotice_foldl_appendOne (snap : LedgerState)
    (m : ConfidentialMessageBySender) :
    ∀ (rs : List String) (acc : LedgerState),
      (∀ k, (getNotice snap.notices k).isSome = true →
            (getNotice acc.notices k).isSome = true) →
      ∀ k,
        ((getNotice (rs.foldl (appendOne snap m) acc).notices k).isSome = true) ↔
          ((getNotice acc.notices k).isSome = true ∨
            ∃ r ∈ rs, k = (r, m.sender)) := by
  intro rs
  induction rs with
  | nil =>
      intro acc _ k
      simp
  | cons r rest ih =>
      intro acc hsub k
      have hstep := getNotice_appendOne snap m acc r
      have hsub' : ∀ k', (getNotice snap.notices k').isSome = true →
          (getNotice (appendOne snap m acc r).notices k').isSome = true := by
        intro k' h'
        exact (hstep k' (hsub _)).mpr (Or.inl (hsub _ h'))
      rw [List.foldl_cons, ih (appendOne snap m acc r) hsub' k,
        hstep k (hsub _)]
      constructor
      · rintro ((h | h) | ⟨r', hr', rfl⟩)
        · exact Or.inl h
        · exact Or.inr ⟨r, by simp, h⟩
        · exact Or.inr ⟨r', List.mem_cons_of_mem _ hr', rfl⟩
      · rintro (h | ⟨r', hr', rfl⟩)
        · exact Or.inl (Or.inl h)
        · rcases List.mem_cons.mp hr' with rfl | hr'
          · exact Or.inl (Or.inr rfl)
          · exact Or.inr ⟨r', hr', rfl⟩

theorem getNotice_foldl_noticeStep (r : String) :
    ∀ (entries : NoticeStore) (acc : List String × LedgerState),
      (∀ e ∈ entries, e.2 = "1" →
        (getNotice acc.2.notices (r, e.1.2)).isSome = true) →
      ∀ k, (getNotice (entries.foldl (noticeStep r) acc).2.notices k).isSome =
        (getNotice acc.2.notices k).isSome := by
  intro entries
  induction entries with
  | nil =>
      intro acc _ k
      rfl
  | cons e rest ih =>
      intro acc hpre k
      rw [List.foldl_cons]
      by_cases he : e.2 = "1"
      · have hsome := hpre e (by simp) he
        have hstep : ∀ k',
            (getNotice (noticeStep r acc e).2.notices k').isSome =
              (getNotice acc.2.notices k').isSome := by
          intro k'
          unfold noticeStep
          rw [if_pos he]
          by_cases hk : k' = (r, e.1.2)
          · subst hk
            simp [getNotice_putNotice_self, hsome]
          · simp [getNotice_putNotice_ne _ _ _ _ hk]
        rw [ih (noticeStep r acc e)
          (fun e' he' h1 => by rw [hstep]; exact hpre e' (by simp [he']) h1) k]
        exact hstep k
      · have hstep : (noticeStep r acc e).2 = acc.2 := by
          unfold noticeStep
          rw [if_neg he]
        rw [ih (noticeStep r acc e)
          (fun e' he' h1 => by rw [hstep]; exact hpre e' (by simp [he']) h1) k,
          hstep]

theorem getNotice_ReadMessageNotice (st : LedgerState) (c r : String)
    (k : String × String) :
    (getNotice (ReadMessageNotice st c r).2.notices k).isSome =
      (getNotice st.notices k).isSome := by
  unfold ReadMessageNotice
  apply getNotice_foldl_noticeStep
  intro e he _
  have hmem : e ∈ st.notices := (List.mem_filter.mp he).1
  have hr : e.1.1 = r := by
    have := (List.mem_filter.mp he).2
    simpa using this
  have hmem' : ((r, e.1.2), e.2) ∈ st.notices := by
    rw [← hr]
    exact hmem
  exact isSome_getNotice_of_mem hmem'

theorem applyOp_notice_mono (st : LedgerState) (op : Op) (k : String × String)
    (h : (getNotice st.notices k).isSome = true) :
    (getNotice (applyOp st op).notices k).isSome = true := by
  cases op with
  | send c p t =>
      cases hs : CreateConfidentialMessageBySender st c p t with
      | error e => simpa [applyOp, hs] using h
      | ok st' =>
          obtain ⟨m, ht, hfold⟩ := send_ok_inv hs
          have happ : applyOp st (Op.send c p t) = st' := by
            simp [applyOp, hs]
          rw [happ, hfold]
          exact (getNotice_foldl_appendOne st m m.receivers st
            (fun _ hh => hh) k).mpr (Or.inl h)
  | readNotices c r =>
      have happ : applyOp st (Op.readNotices c r) =
          (ReadMessageNotice st c r).2 := rfl
      rw [happ, getNotice_ReadMessageNotice]
      exact h
  | readMessages c s r => exact h

theorem execTrace_invariant :
    ∀ (ops : List Op) (st : LedgerState) (sent : List (String × String)),
      NoticeInvariant st sent →
      NoticeInvariant (execTrace st sent ops).1 (execTrace st sent ops).2 := by
  intro ops
  induction ops with
  | nil =>
      intro st sent h
      exact h
  | cons op rest ih =>
      intro st sent h
      rw [execTrace]
      apply ih
      cases op with
      | readMessages c s r =>
          intro s' r'
          simpa [applyOp, sentPairs] using h s' r'
      | readNotices c r =>
          intro s' r'
          have happ : applyOp st (Op.readNotices c r) =
              (ReadMessageNotice st c r).2 := rfl
          have hsp : sentPairs st (Op.readNotices c r) = [] := rfl
          rw [happ, hsp, List.append_nil, getNotice_ReadMessageNotice]
          exact h s' r'
      | send c p t =>
          cases hs : CreateConfidentialMessageBySender st c p t with
          | error e =>
              intro s' r'
              have happ : applyOp st (Op.send c p t) = st := by
                simp [applyOp, hs]
              have hsp : sentPairs st (Op.send c p t) = [] := by
                simp [sentPairs, hs]
              rw [happ, hsp, List.append_nil]
              exact h s' r'
          | ok st' =>
              obtain ⟨m, ht, hfold⟩ := send_ok_inv hs
              subst ht
              intro s' r'
              have happ : applyOp st (Op.send c p (some (some m))) = st' := by
                simp [applyOp, hs]
              have hsp : sentPairs st (Op.send c p (some (some m))) =
                  m.receivers.map (fun r => (m.sender, r)) := by
                simp [sentPairs, hs]
              rw [happ, hsp, hfold,
                getNotice_foldl_appendOne st m m.receivers st
                  (fun _ hh => hh) (r', s'),
                h s' r', List.mem_append, List.mem_map]
              constructor
              · rintro (hin | ⟨rr, hrr, heq⟩)
                · exact Or.inl hin
                · obtain ⟨h1, h2⟩ := Prod.ext_iff.mp heq
                  exact Or.inr ⟨rr, hrr, Prod.ext_iff.mpr ⟨h2.symm, h1.symm⟩⟩
              · rintro (hin | ⟨rr, hrr, heq⟩)
                · exact Or.inl hin
                · obtain ⟨h1, h2⟩ := Prod.ext_iff.mp heq
                  exact Or.inr ⟨rr, hrr, Prod.ext_iff.mpr ⟨h2.symm, h1.symm⟩⟩

theorem valsOK_putNotice {l : NoticeStore}
    (hl : ∀ e ∈ l, e.2 = "1" ∨ e.2 = "0") {k : String × String} {v : String}
    (hv : v = "1" ∨ v = "0") :
    ∀ e ∈ putNotice l k v, e.2 = "1" ∨ e.2 = "0" := by
  intro e he
  rcases mem_putNotice he with h | h
  · exact hl e h
  · rw [h]
    exact hv

theorem valsOK_CreateMessageNotice {snap st : LedgerState}
    (h : noticeValsOK st) (s r : String) :
    noticeValsOK (CreateMessageNotice snap st s r) := by
  unfold CreateMessageNotice noticeValsOK
  split
  · exact h
  · exact valsOK_putNotice h (Or.inl rfl)

theorem valsOK_appendOne {snap acc : LedgerState} (h : noticeValsOK acc)
    (m : ConfidentialMessageBySender) (r : String) :
    noticeValsOK (appendOne snap m acc r) := by
  unfold appendOne
  apply valsOK_CreateMessageNotice
  exact h

theorem valsOK_foldl_appendOne {snap : LedgerState}
    (m : ConfidentialMessageBySender) :
    ∀ (rs : List String) (acc : LedgerState), noticeValsOK acc →
      noticeValsOK (rs.foldl (appendOne snap m) acc) := by
  intro rs
  induction rs with
  | nil =>
      intro acc h
      exact h
  | cons r rest ih =>
      intro acc h
      rw [List.foldl_cons]
      exact ih _ (valsOK_appendOne h m r)

theorem valsOK_foldl_noticeStep (r : String) :
    ∀ (entries : NoticeStore) (acc : List String × LedgerState),
      noticeValsOK acc.2 →
      noticeValsOK (entries.foldl (noticeStep r) acc).2 := by
  intro entries
  induction entries with
  | nil =>
      intro acc h
      exact h
  | cons e rest ih =>
      intro acc h
      rw [List.foldl_cons]
      apply ih
      unfold noticeStep
      split
      · exact valsOK_putNotice h (Or.inr rfl)
      · exact h

theorem valsOK_applyOp {st : LedgerState} (h : noticeValsOK st) (op : Op) :
    noticeValsOK (applyOp st op) := by
  cases op with
  | send c p t =>
      cases hs : CreateConfidentialMessageBySender st c p t with
      | error e =>
          have happ : applyOp st (Op.send c p t) = st := by
            simp [applyOp, hs]
          rw [happ]
          exact h
      | ok st' =>
          obtain ⟨m, ht, hfold⟩ := send_ok_inv hs
          have happ : applyOp st (Op.send c p t) = st' := by
            simp [applyOp, hs]
          rw [happ, hfold]
          exact valsOK_foldl_appendOne m m.receivers st h
  | readNotices c r =>
      have happ : applyOp st (Op.readNotices c r) =
          (ReadMessageNotice st c r).2 := rfl
      rw [happ]
      unfold ReadMessageNotice
      exact valsOK_foldl_noticeStep r _ ([], st) h
  | readMessages c s r => exact h

theorem valsOK_execTrace :
    ∀ (ops : List Op) (st : LedgerState) (sent : List (String × String)),
      noticeValsOK st → noticeValsOK (execTrace st sent ops).1 := by
  intro ops
  induction ops with
  | nil =>
      intro st sent h
      exact h
  | cons op rest ih =>
      intro st sent h
      rw [execTrace]
      exact ih _ _ (valsOK_applyOp h op)

/-- C6: over every trace of send / readNotices / readMessages from the empty
ledger, a notice entry keyed (receiver, sender) exists iff some successful
send delivered a message sender -> receiver; no operation ever removes a
notice entry from any state; and every stored notice value is the unread
flag "1" or the read flag "0" (the entry only toggles between them). -/
theorem C6_notice_lifecycle :
    (∀ (ops : List Op) (s r : String),
      (getNotice (execTrace emptyLedger [] ops).1.notices (r, s)).isSome =
          true ↔
        (s, r) ∈ (execTrace emptyLedger [] ops).2) ∧
    (∀ (st : LedgerState) (op : Op) (k : String × String),
      (getNotice st.notices k).isSome = true →
      (getNotice (applyOp st op).notices k).isSome = true) ∧
    (∀ ops : List Op, ∀ e ∈ (execTrace emptyLedger [] ops).1.notices,
      e.2 = "1" ∨ e.2 = "0") := by
  refine ⟨?_, applyOp_notice_mono, ?_⟩
  · intro ops s r
    exact execTrace_invariant ops emptyLedger []
      (fun s' r' => by simp [emptyLedger, getNotice]) s r
  · intro ops
    exact valsOK_execTrace ops emptyLedger []
      (fun e he => by simp [emptyLedger] at he)

/-- C6 witness: the no-deletion clause applied at a concrete state and
operation, its hypothesis discharged by evaluation. -/
theorem C6_notice_lifecycle_witness :
    (getNotice (applyOp demoSendState
        (Op.readNotices "org2MSP" "org2")).notices ("org2", "org1")).isSome =
      true :=
  C6_notice_lifecycle.2.1 demoSendState (Op.readNotices "org2MSP" "org2")
    ("org2", "org1") (by decide)
